import Mathlib

/-!
Verification of the AI_Interview session-orchestration core.

The definitions below are a shallow embedding of the Python sources:
  src/services/stt.py    (StreamingAudioProcessor: stream lifecycle, silence
                          segmentation, restart policy)
  src/services/flow.py   (dialogue orchestration: process_user_transcript,
                          check_stop_command, end_interview_naturally)
  src/services/report.py (report pairing loop, generate_fallback_analysis)
  src/sockets/events.py  (session lifecycle glue)

Machine reals (Python floats used only for wall-clock times and scores) are
modelled over the exact rationals; bytes are modelled as lists of naturals;
the external speech/LLM/TTS backends are modelled by explicit parameters
holding the values they return.
-/

namespace AIInterview

/-! ## Substring containment (the Python `needle in haystack` operator) -/

/-- Model of Python prefix matching over character lists: `startsWithChars n h`
holds when `n` is an initial segment of `h`. -/
def startsWithChars : List Char → List Char → Bool
  | [], _ => true
  | _ :: _, [] => false
  | a :: as, b :: bs => a == b && startsWithChars as bs

/-- Model of the Python substring operator `n in h` over character lists:
true when `n` occurs contiguously anywhere in `h`. -/
def containsChars (needle : List Char) : List Char → Bool
  | [] => needle.isEmpty
  | c :: t => startsWithChars needle (c :: t) || containsChars needle t

theorem startsWithChars_iff (n : List Char) : ∀ h : List Char,
    startsWithChars n h = true ↔ ∃ post, h = n ++ post := by
  induction n with
  | nil =>
    intro h
    simp [startsWithChars]
  | cons a as ih =>
    intro h
    cases h with
    | nil => simp [startsWithChars]
    | cons b bs =>
      simp only [startsWithChars, Bool.and_eq_true, beq_iff_eq, ih]
      constructor
      · rintro ⟨rfl, post, rfl⟩
        exact ⟨post, rfl⟩
      · rintro ⟨post, hpost⟩
        simp only [List.cons_append, List.cons.injEq] at hpost
        exact ⟨hpost.1.symm, post, hpost.2⟩

theorem containsChars_iff (n : List Char) : ∀ h : List Char,
    containsChars n h = true ↔ ∃ pre post, h = pre ++ n ++ post := by
  intro h
  induction h with
  | nil =>
    simp only [containsChars, List.isEmpty_iff]
    constructor
    · rintro rfl
      exact ⟨[], [], rfl⟩
    · rintro ⟨pre, post, hpp⟩
      rcases pre <;> rcases n <;> simp_all
  | cons c t ih =>
    simp only [containsChars, Bool.or_eq_true, startsWithChars_iff, ih]
    constructor
    · rintro (⟨post, hp⟩ | ⟨pre, post, hp⟩)
      · exact ⟨[], post, by simpa using hp⟩
      · exact ⟨c :: pre, post, by simp [hp]⟩
    · rintro ⟨pre, post, hpp⟩
      cases pre with
      | nil =>
        left
        exact ⟨post, by simpa using hpp⟩
      | cons p ps =>
        right
        simp only [List.cons_append, List.cons.injEq] at hpp
        exact ⟨ps, post, hpp.2⟩

/-- Convenience wrapper: the Python expression `needle in hay` on strings. -/
def strIn (needle hay : String) : Bool :=
  containsChars needle.toList hay.toList

/-- Model of Python `str.lower` on one character, for the ASCII range that the
fixed phrase tables of this repository use. -/
def lowerChar (c : Char) : Char :=
  if 65 ≤ c.toNat ∧ c.toNat ≤ 90 then Char.ofNat (c.toNat + 32) else c

/-- Model of Python `str.lower`: lowercase every character. -/
def lowerChars (l : List Char) : List Char := l.map lowerChar

/-! ## Stop-intent detection (flow.py, check_stop_command) -/

/-- The fixed stop-phrase set of `check_stop_command` (flow.py lines 21-24). -/
def stop_phrases : List String :=
  ["stop the interview", "end the interview", "stop interview", "end interview",
   "finish interview", "conclude interview", "that\x27s all", "i\x27m done",
   "no more questions"]

/-- Embedding of `check_stop_command` (flow.py lines 20-26): lowercase the
transcript and test whether any fixed stop phrase occurs as a substring. -/
def check_stop_command (text : String) : Bool :=
  stop_phrases.any fun phrase => containsChars phrase.toList (lowerChars text.toList)

/-- C9: stop-intent detection is case-insensitive substring containment:
`check_stop_command` returns true exactly when the lowercased transcript
contains one of the nine fixed stop phrases contiguously anywhere within it;
in particular the utterance "we should not stop the interview", which merely
embeds a stop phrase, is treated as stop intent. -/
theorem C9_stop_intent_substring :
    (∀ text : String, check_stop_command text = true ↔
      ∃ p ∈ stop_phrases, ∃ pre post,
        lowerChars text.toList = pre ++ p.toList ++ post)
    ∧ check_stop_command "we should not stop the interview" = true
    ∧ stop_phrases.length = 9 := by
  refine ⟨?_, by decide, by decide⟩
  intro text
  simp [check_stop_command, List.any_eq_true, containsChars_iff]

/-! ## Python helpers shared by report.py and flow.py -/

/-- Model of Python `str.split()` with no separator: split on whitespace runs,
dropping empty pieces. Accumulator holds the current word reversed. -/
def splitWsAux : List Char → List Char → List (List Char)
  | acc, [] => if acc.isEmpty then [] else [acc.reverse]
  | acc, c :: t =>
    if c.isWhitespace then
      (if acc.isEmpty then [] else [acc.reverse]) ++ splitWsAux [] t
    else
      splitWsAux (c :: acc) t

/-- Number of whitespace-separated words, Python `len(s.split())`. -/
def py_word_count (s : String) : Nat := (splitWsAux [] s.toList).length

/-- Model of Python `int(round(x))`: round half to even (banker rounding). -/
def pyRound (q : ℚ) : ℤ :=
  let f := ⌊q⌋
  let r := q - (f : ℚ)
  if r < 1 / 2 then f
  else if 1 / 2 < r then f + 1
  else if f % 2 = 0 then f else f + 1

/-! ## Q&A pairs and the rule-based fallback analysis (report.py) -/

/-- One question/answer pair as assembled by the pairing loop of
`generate_dynamic_report` (report.py lines 41-46). -/
structure QaPair where
  question : String
  answer : String
  score : ℤ
  evaluation : String
deriving DecidableEq, Repr

/-- Hedging vocabulary of `generate_fallback_analysis` (report.py line 208). -/
def hedge_phrases : List String :=
  ["don\x27t remember", "don\x27t know", "not sure", "maybe", "i think"]

/-- Result record of `generate_fallback_analysis`; the four
`technical_assessment` sub-fields are flattened into the record. -/
structure FallbackAnalysis where
  overall_evaluation : String
  recommendation : String
  key_strengths : List String
  areas_for_improvement : List String
  depth_of_knowledge : ℤ
  problem_solving : ℤ
  communication : ℤ
  experience_relevance : ℤ
  resume_alignment : String
  job_fit : String
  next_steps : String
deriving Repr

/-- The `while len(xs) < 3: xs.append(filler)` padding loops of
`generate_fallback_analysis` (report.py lines 247-250). -/
def padTo3 (filler : String) (l : List String) : List String :=
  if l.length < 3 then padTo3 filler (l ++ [filler]) else l
termination_by 3 - l.length
decreasing_by
  simp only [List.length_append, List.length_cons, List.length_nil]
  omega

/-- Embedding of `generate_fallback_analysis` (report.py lines 206-266):
the deterministic rule-based analysis derived from the average score and
text heuristics over the answers. -/
def generate_fallback_analysis (avg_score : ℚ) (qa_count : Nat)
    (qa_pairs : List QaPair) : FallbackAnalysis :=
  let short_answers : Nat :=
    (qa_pairs.filter fun qa => (splitWsAux [] qa.answer.toList).length < 15).length
  let unclear_answers : Nat :=
    (qa_pairs.filter fun qa =>
      hedge_phrases.any fun w => containsChars w.toList (lowerChars qa.answer.toList)).length
  let rec_eval : String × String :=
    if 8 ≤ avg_score ∧ unclear_answers = 0 then
      ("Strong Hire - Demonstrated excellent technical competence and clear communication",
       "Candidate performed exceptionally well across " ++ toString qa_count ++
         " questions with an average score of " ++ toString avg_score ++
         "/10. Shows strong technical foundation, clear communication, and confidence in their expertise.")
    else if 7 ≤ avg_score ∧ unclear_answers ≤ 1 then
      ("Hire - Good technical foundation with clear potential",
       "Candidate showed solid performance across " ++ toString qa_count ++
         " questions with an average score of " ++ toString avg_score ++
         "/10. Demonstrates good technical skills and adequate communication, with room for minor improvements.")
    else if 6 ≤ avg_score then
      ("Maybe - Some potential but notable gaps identified",
       "Candidate completed " ++ toString qa_count ++
         " questions with an average score of " ++ toString avg_score ++
         "/10. Shows basic understanding but has gaps in technical depth and communication clarity. " ++
         toString unclear_answers ++ " responses showed uncertainty.")
    else if 5 ≤ avg_score then
      ("Maybe - Needs significant development",
       "Candidate struggled with technical depth across " ++ toString qa_count ++
         " questions (average: " ++ toString avg_score ++
         "/10). Multiple responses lacked clarity or detail. " ++
         toString unclear_answers ++ " responses showed inability to recall or explain concepts.")
    else
      ("No Hire - Significant skill gaps and communication issues",
       "Candidate demonstrated inadequate technical knowledge across " ++ toString qa_count ++
         " questions (average: " ++ toString avg_score ++
         "/10). Frequent inability to provide detailed responses or recall project details. Not ready for this role.")
  let strengths1 : List String :=
    if 8 ≤ qa_count then
      ["Completed comprehensive interview (" ++ toString qa_count ++ " questions)"] else []
  let improvements1 : List String :=
    if 8 ≤ qa_count then []
    else ["Interview concluded early with only " ++ toString qa_count ++ " questions covered"]
  let strengths2 : List String :=
    if unclear_answers = 0 then ["Provided confident responses without hesitation"] else []
  let improvements2 : List String :=
    if unclear_answers = 0 then []
    else ["Showed uncertainty in " ++ toString unclear_answers ++
            " responses, indicating knowledge gaps"]
  let strengths3 : List String :=
    if (short_answers : ℚ) < (qa_count : ℚ) / 2 then
      ["Generally provided detailed explanations"] else []
  let improvements3 : List String :=
    if (short_answers : ℚ) < (qa_count : ℚ) / 2 then []
    else ["Many responses were brief (" ++ toString short_answers ++ "/" ++
            toString qa_count ++ "), lacking technical depth"]
  let strengths4 : List String :=
    if 7 ≤ avg_score then ["Demonstrated solid technical foundation"] else []
  let improvements4 : List String :=
    if 7 ≤ avg_score then ["Could improve by providing more specific examples"]
    else ["Needs to strengthen core technical knowledge and practical experience",
          "Should work on articulating technical concepts more clearly"]
  let strengths := strengths1 ++ strengths2 ++ strengths3 ++ strengths4
  let improvements := improvements1 ++ improvements2 ++ improvements3 ++ improvements4
  { overall_evaluation := rec_eval.2
    recommendation := rec_eval.1
    key_strengths :=
      (padTo3 "Maintained professional demeanor throughout interview" strengths).take 3
    areas_for_improvement :=
      (padTo3 "Requires more hands-on experience with technologies mentioned in resume"
        improvements).take 3
    depth_of_knowledge := pyRound avg_score
    problem_solving := pyRound (avg_score * (9 / 10))
    communication :=
      if 2 < unclear_answers then pyRound (avg_score * (8 / 10)) else pyRound avg_score
    experience_relevance := pyRound (avg_score * (85 / 100))
    resume_alignment :=
      "Based on " ++ toString qa_count ++ " questions, candidate\x27s responses " ++
        (if 7 ≤ avg_score then "align well with" else "show discrepancies from") ++
        " resume claims."
    job_fit :=
      "Candidate demonstrates " ++
        (if 15 / 2 ≤ avg_score then "strong"
         else if 6 ≤ avg_score then "partial" else "limited") ++
        " alignment with job requirements."
    next_steps :=
      if 15 / 2 ≤ avg_score then "Proceed to technical round with senior engineer"
      else if 6 ≤ avg_score then "Consider additional screening"
      else "Thank candidate for their time, not proceeding" }

theorem three_le_padTo3_length (f : String) (l : List String) :
    3 ≤ (padTo3 f l).length := by
  induction l using padTo3.induct f with
  | case1 l h ih =>
    rw [padTo3, if_pos h]
    exact ih
  | case2 l h =>
    rw [padTo3, if_neg h]
    omega

theorem length_take_three_padTo3 (f : String) (l : List String) :
    ((padTo3 f l).take 3).length = 3 := by
  rw [List.length_take]
  have := three_le_padTo3_length f l
  omega

/-- C10: for every input average score, question count and Q&A pair list, the
rule-based fallback analysis returns exactly three key strengths and exactly
three areas for improvement (padding with fixed fillers and truncating to
three when necessary). -/
theorem C10_fallback_three_each :
    ∀ (avg : ℚ) (qc : Nat) (pairs : List QaPair),
      (generate_fallback_analysis avg qc pairs).key_strengths.length = 3 ∧
      (generate_fallback_analysis avg qc pairs).areas_for_improvement.length = 3 := by
  intro avg qc pairs
  exact ⟨length_take_three_padTo3 _ _, length_take_three_padTo3 _ _⟩

/-! ## Turn history (the chat_history list) and the report pairing loop -/

/-- One chat_history entry. The Python code stores heterogeneous dicts and
tests key presence; the three shapes that occur are the metadata record
written by start_interview, interviewer turns (whose evaluation and score
keys are present in the parsed-reply branch and absent in the raw-fallback
branch, modelled with Option), and candidate turns. -/
inductive Entry
  | metadata (resume jd question_type : String)
  | interviewer (question : String) (evaluation : Option String) (score : Option ℤ)
  | candidate (text : String)
deriving DecidableEq, Repr

/-- Embedding of `get_question_count` (flow.py lines 12-17): count entries
holding an interviewer key and no resume key. -/
def get_question_count (chat_history : List Entry) : Nat :=
  (chat_history.filter fun e =>
    match e with
    | Entry.interviewer _ _ _ => true
    | _ => false).length

/-- Default evaluation text used by the pairing loop when the evaluation is
missing or empty (report.py line 45). -/
def eval_or_default (ev : String) : String :=
  if ev = "" then "Response received and being evaluated" else ev

/-- Embedding of the Q&A pairing loop of `generate_dynamic_report`
(report.py lines 27-49): the loop walks the history one index at a time; on
an interviewer entry immediately followed by a candidate entry it emits a
pair whose evaluation and score are read from the entry two positions after
the question (the interviewer turn following the answer), defaulting to ""
and 0 when that entry is absent or not an interviewer turn. -/
def buildQaPairs : List Entry → List QaPair
  | [] => []
  | Entry.interviewer q _ _ :: rest =>
    (match rest with
     | Entry.candidate a :: rest2 =>
       let es : String × ℤ :=
         match rest2 with
         | Entry.interviewer _ e2 s2 :: _ => (e2.getD "", s2.getD 0)
         | _ => ("", 0)
       [{ question := q, answer := a, score := es.2, evaluation := eval_or_default es.1 }]
     | _ => []) ++ buildQaPairs rest
  | _ :: rest => buildQaPairs rest

/-- The pairing loop starts at index 1 (report.py line 24), skipping the
metadata entry at index 0. -/
def qa_pairs_of (chat_history : List Entry) : List QaPair :=
  buildQaPairs chat_history.tail

theorem mem_buildQaPairs_cons (a : Entry) (t : List Entry) (x : QaPair)
    (hx : x ∈ buildQaPairs t) : x ∈ buildQaPairs (a :: t) := by
  cases a with
  | metadata r j ty => simpa [buildQaPairs] using hx
  | candidate c => simpa [buildQaPairs] using hx
  | interviewer q e s =>
    show x ∈ _ ++ buildQaPairs t
    exact List.mem_append_right _ hx

theorem mem_buildQaPairs_append (pre l : List Entry) (x : QaPair)
    (hx : x ∈ buildQaPairs l) : x ∈ buildQaPairs (pre ++ l) := by
  induction pre with
  | nil => simpa using hx
  | cons a t ih => exact mem_buildQaPairs_cons a (t ++ l) x ih

/-- C6: the report pairing takes each pair evaluation and score from the
interviewer entry two positions after the question (the one following the
answer), never from the question entry itself. First conjunct: wherever the
history contains a question immediately followed by an answer and then
another interviewer turn, the emitted pair carries the later turn score and
evaluation (the question own evaluation and score do not appear in the
result). Second conjunct: for the five-entry history
[metadata, Q1, A1, Q2, A2] the pair for Q1 carries the score and evaluation
found on Q2, and the pair for Q2 (with no following interviewer turn) gets
score 0 and the default evaluation text. -/
theorem C6_report_pairing :
    (∀ (pre rest : List Entry) (q a q2 : String) (e e2 : Option String)
        (s s2 : Option ℤ),
      { question := q, answer := a, score := s2.getD 0,
        evaluation := eval_or_default (e2.getD "") : QaPair }
        ∈ buildQaPairs (pre ++ Entry.interviewer q e s :: Entry.candidate a ::
            Entry.interviewer q2 e2 s2 :: rest))
    ∧ (∀ (r j ty q1 a1 q2 a2 : String) (e1 e2 : Option String) (s1 s2 : Option ℤ),
      qa_pairs_of [Entry.metadata r j ty,
                   Entry.interviewer q1 e1 s1, Entry.candidate a1,
                   Entry.interviewer q2 e2 s2, Entry.candidate a2]
        = [{ question := q1, answer := a1, score := s2.getD 0,
             evaluation := eval_or_default (e2.getD "") },
           { question := q2, answer := a2, score := 0,
             evaluation := eval_or_default "" }]) := by
  constructor
  · intro pre rest q a q2 e e2 s s2
    apply mem_buildQaPairs_append
    simp [buildQaPairs]
  · intro r j ty q1 a1 q2 a2 e1 e2 s1 s2
    simp [qa_pairs_of, buildQaPairs]

/-! ## StreamingAudioProcessor state and lifecycle (stt.py) -/

/-- One audio chunk (Python bytes), modelled as a list of byte values. -/
abbrev AudioChunk := List Nat

/-- Silence threshold in seconds (stt.py line 25). -/
def SILENCE_THRESHOLD : ℚ := 3

/-- Restart ceiling (stt.py line 28). -/
def max_restarts : Nat := 10

/-- Minimum seconds between restarts (stt.py line 30). -/
def restart_cooldown : ℚ := 2

/-- Consecutive transient-error ceiling (stt.py line 172). -/
def max_consecutive_errors : Nat := 3

/-- The mutable fields of StreamingAudioProcessor that its externally
callable operations and the utterance segmenter touch. Wall-clock times are
exact rationals. The None shutdown sentinel that `stop` pushes into the
Python queue is a control signal, not audio data, and is modelled as the
separate flag `shutdown_signalled`; `audio_queue` holds the audio chunks.
The worker-thread handle and gRPC stream handle are opaque resources and are
not part of the state. -/
structure ProcState where
  is_running : Bool
  is_listening : Bool
  audio_queue : List AudioChunk
  restart_count : Nat
  last_restart_time : ℚ
  shutdown_signalled : Bool
  last_audio_time : ℚ
  current_transcript : String
  last_final_time : Option ℚ
deriving DecidableEq, Repr

/-- State established by `__init__` (stt.py lines 16-38), given the
construction time. -/
def init_proc (now : ℚ) : ProcState :=
  { is_running := false, is_listening := false, audio_queue := []
    restart_count := 0, last_restart_time := 0, shutdown_signalled := false
    last_audio_time := now, current_transcript := "", last_final_time := none }

/-- Embedding of `start` (stt.py lines 62-72): idempotent; otherwise sets the
running and listening flags and resets the restart counters before launching
the worker. -/
def ProcState.start (s : ProcState) : ProcState :=
  if s.is_running then s
  else { s with is_running := true, is_listening := true,
                restart_count := 0, last_restart_time := 0 }

/-- Embedding of `stop` (stt.py lines 74-91): idempotent; otherwise clears the
flags, drains the queue, signals shutdown and joins the worker (bounded
wait). -/
def ProcState.stop (s : ProcState) : ProcState :=
  if s.is_running then
    { s with is_running := false, is_listening := false,
             audio_queue := [], shutdown_signalled := true }
  else s

/-- Embedding of `mute` (stt.py lines 93-98). -/
def ProcState.mute (s : ProcState) : ProcState :=
  { s with is_listening := false, current_transcript := "", last_final_time := none }

/-- Embedding of `unmute` (stt.py lines 100-105): note that it sets the
listening flag without consulting the running flag. -/
def ProcState.unmute (s : ProcState) : ProcState :=
  { s with is_listening := true, current_transcript := "", last_final_time := none }

/-- Embedding of `add_audio` (stt.py lines 107-120): silently dropped when
not running; otherwise records the arrival time and enqueues, evicting the
oldest chunk when the bounded queue (maxsize 100) is full. -/
def ProcState.add_audio (s : ProcState) (b : AudioChunk) (now : ℚ) : ProcState :=
  if s.is_running then
    let s1 := { s with last_audio_time := now }
    if s1.audio_queue.length < 100 then { s1 with audio_queue := s1.audio_queue ++ [b] }
    else { s1 with audio_queue := s1.audio_queue.tail ++ [b] }
  else s

/-- The four externally callable lifecycle operations of claim C3. -/
inductive ManagerOp
  | start | stop | mute | unmute
deriving DecidableEq, Repr

def apply_op (op : ManagerOp) (s : ProcState) : ProcState :=
  match op with
  | ManagerOp.start => s.start
  | ManagerOp.stop => s.stop
  | ManagerOp.mute => s.mute
  | ManagerOp.unmute => s.unmute

def run_ops : List ManagerOp → ProcState → ProcState
  | [], s => s
  | op :: rest, s => run_ops rest (apply_op op s)

/-- The spec invariant: listening implies running. -/
def listening_implies_running (s : ProcState) : Prop :=
  s.is_listening = true → s.is_running = true

/-- Trace guard for the amended C3: true when every `unmute` in the sequence
is invoked while the manager is running. -/
def unmute_only_while_running : List ManagerOp → ProcState → Bool
  | [], _ => true
  | op :: rest, s =>
    (match op with
     | ManagerOp.unmute => s.is_running
     | _ => true) && unmute_only_while_running rest (apply_op op s)

/-- C3 counterexample: the claim fails as stated. `unmute()` sets the
listening flag unconditionally (stt.py lines 100-105), so the one-operation
sequence [unmute] on a freshly constructed manager leaves it listening while
not running, violating the invariant. -/
theorem C3_unmute_counterexample :
    (run_ops [ManagerOp.unmute] (init_proc 0)).is_listening = true ∧
    (run_ops [ManagerOp.unmute] (init_proc 0)).is_running = false :=
  ⟨rfl, rfl⟩

/-- C3 amended: for every sequence of start/stop/mute/unmute operations in
which unmute is only invoked while the manager is running, the invariant
listening-implies-running holds after each operation (stated as preservation
from any state satisfying it, hence after every prefix of such a trace). -/
theorem C3_listening_implies_running_amended :
    ∀ (ops : List ManagerOp) (s : ProcState),
      listening_implies_running s →
      unmute_only_while_running ops s = true →
      listening_implies_running (run_ops ops s) := by
  intro ops
  induction ops with
  | nil => intro s hs _; exact hs
  | cons op rest ih =>
    intro s hs hg
    simp only [unmute_only_while_running, Bool.and_eq_true] at hg
    refine ih (apply_op op s) ?_ hg.2
    cases op with
    | start =>
      simp only [apply_op, ProcState.start]
      split
      · exact hs
      · intro _; rfl
    | stop =>
      simp only [apply_op, ProcState.stop]
      split
      · intro h; cases h
      · exact hs
    | mute =>
      intro h; cases h
    | unmute =>
      intro _
      simpa [apply_op, ProcState.unmute] using hg.1

/-- Witness for the amended C3 at a concrete trace. -/
theorem C3_amended_witness :
    listening_implies_running
      (run_ops [ManagerOp.start, ManagerOp.mute, ManagerOp.unmute, ManagerOp.stop]
        (init_proc 0)) :=
  C3_listening_implies_running_amended _ _ (fun h => by cases h) (by rfl)

theorem add_audio_not_running (s : ProcState) (b : AudioChunk) (now : ℚ)
    (h : s.is_running = false) : s.add_audio b now = s := by
  simp [ProcState.add_audio, h]

/-- C7: for every sequence of byte chunks, calling add_audio after stop() has
returned and before the next start() is a no-op: the state (in particular
the audio queue) is unchanged, and the queue left by stop is empty. -/
theorem C7_add_audio_after_stop :
    ∀ (s : ProcState), s.is_running = true →
      (s.stop).audio_queue = [] ∧
      ∀ (chunks : List (AudioChunk × ℚ)),
        chunks.foldl (fun st c => st.add_audio c.1 c.2) s.stop = s.stop := by
  intro s hs
  have hq : (s.stop).audio_queue = [] := by simp [ProcState.stop, hs]
  have hr : (s.stop).is_running = false := by simp [ProcState.stop, hs]
  refine ⟨hq, ?_⟩
  intro chunks
  induction chunks with
  | nil => rfl
  | cons c rest ih => simpa [add_audio_not_running _ _ _ hr] using ih

/-- Witness for C7: a started-then-stopped manager ignores a concrete chunk. -/
theorem C7_witness :
    ((init_proc 0).start.stop).audio_queue = [] ∧
    List.foldl (fun st c => ProcState.add_audio st c.1 c.2)
        ((init_proc 0).start.stop) [([1, 2, 3], 5)]
      = (init_proc 0).start.stop :=
  ⟨(C7_add_audio_after_stop _ rfl).1,
   (C7_add_audio_after_stop _ rfl).2 [([1, 2, 3], 5)]⟩

/-! ## Utterance segmentation (stt.py, _process_responses and _check_silence) -/

/-- Remove leading and trailing whitespace from a character list. -/
def trimChars (l : List Char) : List Char :=
  ((l.dropWhile Char.isWhitespace).reverse.dropWhile Char.isWhitespace).reverse

/-- Model of Python `str.strip()`. -/
def strip (s : String) : String := ⟨trimChars s.toList⟩

/-- Model of Python `str.isspace()`: nonempty and all whitespace. -/
def pyIsSpace (s : String) : Bool :=
  s.length != 0 && s.toList.all Char.isWhitespace

/-- Embedding of the final-result branch of `_process_responses`
(stt.py lines 299-305) at the moment a final fragment is handled: while
listening, a final fragment with non-trivial stripped text is appended to
the accumulating transcript with a trailing space and the finalize timestamp
is recorded. (The interim/final socket events are client notifications and
carry no state; the silence-check thread the branch also spawns is
represented by a `SegEvent.check` at fragment time plus the threshold.) -/
def on_final_fragment (s : ProcState) (t : String) (now : ℚ) : ProcState :=
  if s.is_listening then
    if strip t ≠ "" ∧ 1 < (strip t).length then
      { s with current_transcript := s.current_transcript ++ strip t ++ " ",
               last_final_time := some now }
    else s
  else s

/-- Embedding of `_check_silence` (stt.py lines 321-335) at the moment the
sleeping check thread wakes, `now` being threshold seconds after the
fragment that spawned it: if a finalize timestamp is set and at least the
threshold old, the transcript state is cleared, and the stripped transcript
is delivered to the completion callback when it was nonempty, the manager
was listening, and it passes the minimal-length check. -/
def check_silence (s : ProcState) (now : ℚ) : ProcState × Option String :=
  match s.last_final_time with
  | none => (s, none)
  | some lf =>
    if SILENCE_THRESHOLD ≤ now - lf then
      if strip s.current_transcript ≠ "" ∧ s.is_listening then
        let complete := strip s.current_transcript
        let s1 := { s with current_transcript := "", last_final_time := none }
        if 2 < complete.length ∧ pyIsSpace complete = false then (s1, some complete)
        else (s1, none)
      else ({ s with current_transcript := "", last_final_time := none }, none)
    else (s, none)

/-- Timed segmenter events: a final recognition fragment processed at a given
time, and the wake-up of a silence-check thread at a given time. -/
inductive SegEvent
  | final (text : String) (time : ℚ)
  | check (time : ℚ)

/-- Run a time-ordered sequence of segmenter events, collecting every
transcript delivered to the utterance-completion callback. -/
def run_seg : List SegEvent → ProcState → ProcState × List String
  | [], s => (s, [])
  | SegEvent.final t tm :: rest, s => run_seg rest (on_final_fragment s t tm)
  | SegEvent.check tm :: rest, s =>
    let r := check_silence s tm
    let r2 := run_seg rest r.1
    (r2.1, r.2.toList ++ r2.2)

/-- C1: if finalized fragments "hello" and "world" arrive (in that order,
within the silence threshold of each other) while the manager is listening
with an empty accumulator, and each fragment schedules its silence check at
its arrival time plus the threshold with no further fragments in between,
then the completion callback is invoked exactly once, with "hello world";
the overlapping checks do not double-fire. -/
theorem C1_silence_debounce :
    ∀ (s : ProcState) (t0 t1 : ℚ),
      s.is_listening = true → s.current_transcript = "" → s.last_final_time = none →
      t0 ≤ t1 → t1 < t0 + SILENCE_THRESHOLD →
      (run_seg [SegEvent.final "hello" t0, SegEvent.final "world" t1,
                SegEvent.check (t0 + SILENCE_THRESHOLD),
                SegEvent.check (t1 + SILENCE_THRESHOLD)] s).2 = ["hello world"] := by
  intro s t0 t1 hl hc hn hle hlt
  obtain ⟨run, lis, q, rc, lrt, sh, lat, cur, lft⟩ := s
  simp only at hl hc hn
  subst hl hc hn
  have e1 : on_final_fragment ⟨run, true, q, rc, lrt, sh, lat, "", none⟩ "hello" t0
      = ⟨run, true, q, rc, lrt, sh, lat, "hello ", some t0⟩ := rfl
  have e2 : on_final_fragment ⟨run, true, q, rc, lrt, sh, lat, "hello ", some t0⟩ "world" t1
      = ⟨run, true, q, rc, lrt, sh, lat, "hello world ", some t1⟩ := rfl
  rcases eq_or_lt_of_le hle with heq | hlt2
  · subst heq
    have h3 : SILENCE_THRESHOLD ≤ t0 + SILENCE_THRESHOLD - t0 := by
      rw [add_sub_cancel_left]
    have c1 : check_silence ⟨run, true, q, rc, lrt, sh, lat, "hello world ", some t0⟩
        (t0 + SILENCE_THRESHOLD)
        = (⟨run, true, q, rc, lrt, sh, lat, "", none⟩, some "hello world") := by
      simp only [check_silence]
      rw [if_pos h3]
      rfl
    have c2 : check_silence ⟨run, true, q, rc, lrt, sh, lat, "", none⟩
        (t0 + SILENCE_THRESHOLD)
        = (⟨run, true, q, rc, lrt, sh, lat, "", none⟩, none) := rfl
    simp [run_seg, e1, e2, c1, c2]
  · have h3 : ¬ (SILENCE_THRESHOLD ≤ t0 + SILENCE_THRESHOLD - t1) := by
      rw [not_le]
      have : (0 : ℚ) < SILENCE_THRESHOLD := by norm_num [SILENCE_THRESHOLD]
      linarith
    have c1 : check_silence ⟨run, true, q, rc, lrt, sh, lat, "hello world ", some t1⟩
        (t0 + SILENCE_THRESHOLD)
        = (⟨run, true, q, rc, lrt, sh, lat, "hello world ", some t1⟩, none) := by
      simp only [check_silence]
      rw [if_neg h3]
    have h4 : SILENCE_THRESHOLD ≤ t1 + SILENCE_THRESHOLD - t1 := by
      rw [add_sub_cancel_left]
    have c2 : check_silence ⟨run, true, q, rc, lrt, sh, lat, "hello world ", some t1⟩
        (t1 + SILENCE_THRESHOLD)
        = (⟨run, true, q, rc, lrt, sh, lat, "", none⟩, some "hello world") := by
      simp only [check_silence]
      rw [if_pos h4]
      rfl
    simp [run_seg, e1, e2, c1, c2]

/-- Witness for C1: a freshly started manager, fragments at times 0 and 1. -/
theorem C1_silence_debounce_witness :
    (run_seg [SegEvent.final "hello" 0, SegEvent.final "world" 1,
              SegEvent.check (0 + SILENCE_THRESHOLD),
              SegEvent.check (1 + SILENCE_THRESHOLD)]
      ((init_proc 0).start)).2 = ["hello world"] :=
  C1_silence_debounce ((init_proc 0).start) 0 1 rfl rfl rfl (by norm_num)
    (by norm_num [SILENCE_THRESHOLD])

/-! ## Streaming worker restart policy (stt.py, _stream_audio and
_should_restart) -/

/-- The two transient-error classes of the `_stream_audio` handlers, which
share the consecutive-error accounting and the `_should_restart` gate but
diverge when the restart is declined: the Unknown "iterating requests" arm
(stt.py lines 196-215) hits a `break` and the worker exits, while the
ServiceUnavailable / DeadlineExceeded / ConnectionError arm (stt.py lines
217-233) has no `break` after the declined `_should_restart()`, so control
falls through to the loop guard and a new stream is opened immediately,
with no counter increment and no cooldown. -/
inductive TransientClass
  | iteratorUnknown
  | recoverable
deriving DecidableEq, Repr

/-- Classification of how one streaming attempt ends, following the handler
arms of `_stream_audio`: normal return of `_process_responses`; a Cancelled
error; a transient error of one of the two classes; any other error (fatal
for the run). -/
inductive Outcome
  | success
  | cancelled
  | transient (cls : TransientClass)
  | fatal
deriving DecidableEq, Repr

/-- One iteration of the worker loop: the attempt outcome, the wall-clock
time at which the outcome is handled (the time `_should_restart` samples),
and the values of the concurrently mutable `is_running` flag as observed at
the loop guard and while handling the outcome. -/
structure Attempt where
  outcome : Outcome
  time : ℚ
  running : Bool
  runningAfter : Bool
deriving DecidableEq, Repr

/-- Embedding of `_should_restart` (stt.py lines 246-274) on the three fields
it decides from; returns the decision together with the updated restart
counter and restart timestamp. (The audio-queue drain it also performs on
success lives on [ProcState] and does not influence the decision.) -/
def should_restart (running : Bool) (count : Nat) (last now : ℚ) :
    Bool × Nat × ℚ :=
  if running = false then (false, count, last)
  else if max_restarts ≤ count then (false, count, last)
  else if now - last < restart_cooldown then (false, count, last)
  else (true, count + 1, now)

/-- Observable events of one worker run: a counted auto-restart (the
`_should_restart` path, which increments the counter and records the
timestamp before re-opening the stream), and a plain re-opening of the
stream with no restart bookkeeping (the loop going back to its guard after
a normal stream end, a cancellation while still running, or a declined
restart on a recoverable-class error). -/
inductive WorkerEv
  | restart (time : ℚ)
  | reopen (time : ℚ)
deriving DecidableEq, Repr

/-- Embedding of the `_stream_audio` worker loop (stt.py lines 169-244) run
over a sequence of attempt outcomes, returning the restart/reopen events in
order: the loop guard re-checks the running flag and the restart ceiling; a
successful attempt resets the consecutive-error counter and re-loops; a
cancellation exits when no longer running and otherwise re-loops; a
transient error of either class increments the consecutive-error counter
and exits once it reaches the ceiling; below the ceiling the
`_should_restart` gate is consulted — accepted, the counted restart happens
(updated counter and timestamp); declined, the iterator-Unknown arm exits
(its `break` at stt.py line 213) but the recoverable arm does not (no
`break` after stt.py line 233): it falls through to the guard and re-opens
the stream at once with counter and timestamp unchanged. Any other error
exits. -/
def stream_audio_events : List Attempt → Nat → ℚ → Nat → List WorkerEv
  | [], _, _, _ => []
  | a :: rest, count, last, consec =>
    if a.running = true ∧ count < max_restarts then
      match a.outcome with
      | Outcome.success =>
        WorkerEv.reopen a.time :: stream_audio_events rest count last 0
      | Outcome.cancelled =>
        if a.runningAfter then
          WorkerEv.reopen a.time :: stream_audio_events rest count last consec
        else []
      | Outcome.transient cls =>
        if max_consecutive_errors ≤ consec + 1 then []
        else
          match should_restart a.runningAfter count last a.time with
          | (true, c1, l1) =>
            WorkerEv.restart a.time :: stream_audio_events rest c1 l1 (consec + 1)
          | (false, _, _) =>
            match cls with
            | TransientClass.iteratorUnknown => []
            | TransientClass.recoverable =>
              WorkerEv.reopen a.time :: stream_audio_events rest count last (consec + 1)
      | Outcome.fatal => []
    else []

/-- The times of the counted auto-restarts among the worker events. -/
def restart_times_of (evs : List WorkerEv) : List ℚ :=
  evs.filterMap fun e =>
    match e with
    | WorkerEv.restart t => some t
    | WorkerEv.reopen _ => none

/-- One-step unfolding of the worker loop on a nonempty attempt list. -/
theorem stream_audio_events_cons (a : Attempt) (rest : List Attempt)
    (count : Nat) (last : ℚ) (consec : Nat) :
    stream_audio_events (a :: rest) count last consec =
      if a.running = true ∧ count < max_restarts then
        match a.outcome with
        | Outcome.success =>
          WorkerEv.reopen a.time :: stream_audio_events rest count last 0
        | Outcome.cancelled =>
          if a.runningAfter then
            WorkerEv.reopen a.time :: stream_audio_events rest count last consec
          else []
        | Outcome.transient cls =>
          if max_consecutive_errors ≤ consec + 1 then []
          else
            match should_restart a.runningAfter count last a.time with
            | (true, c1, l1) =>
              WorkerEv.restart a.time :: stream_audio_events rest c1 l1 (consec + 1)
            | (false, _, _) =>
              match cls with
              | TransientClass.iteratorUnknown => []
              | TransientClass.recoverable =>
                WorkerEv.reopen a.time :: stream_audio_events rest count last (consec + 1)
        | Outcome.fatal => []
      else [] := rfl

theorem restart_times_of_reopen (t : ℚ) (l : List WorkerEv) :
    restart_times_of (WorkerEv.reopen t :: l) = restart_times_of l := by
  simp [restart_times_of]

theorem restart_times_of_restart (t : ℚ) (l : List WorkerEv) :
    restart_times_of (WorkerEv.restart t :: l) = t :: restart_times_of l := by
  simp [restart_times_of]

theorem should_restart_true (running : Bool) (count : Nat) (last now : ℚ)
    (h : (should_restart running count last now).1 = true) :
    running = true ∧ count < max_restarts ∧ restart_cooldown ≤ now - last := by
  unfold should_restart at h
  split_ifs at h with h1 h2 h3
  refine ⟨?_, by omega, by linarith⟩
  revert h1
  cases running <;> simp

theorem should_restart_true_eq (running : Bool) (count : Nat) (last now : ℚ)
    (c1 : Nat) (l1 : ℚ)
    (h : should_restart running count last now = (true, c1, l1)) :
    c1 = count + 1 ∧ l1 = now ∧ restart_cooldown ≤ now - last := by
  unfold should_restart at h
  split_ifs at h with h1 h2 h3 <;> simp_all

/-- A transient error of either class arriving with the consecutive-error
counter one below the ceiling makes the worker exit at once, whatever
follows. -/
theorem stream_audio_third_error (a : Attempt) (rest : List Attempt)
    (count : Nat) (last : ℚ) (consec : Nat) (cls : TransientClass)
    (ho : a.outcome = Outcome.transient cls)
    (hc : max_consecutive_errors ≤ consec + 1) :
    stream_audio_events (a :: rest) count last consec = [] := by
  simp only [stream_audio_events, ho]
  split
  all_goals simp [hc]

/-- Counted restart times are spaced by at least the cooldown, and every
counted restart time is at least one cooldown after the incoming
last-restart timestamp. -/
theorem stream_audio_restarts_spaced :
    ∀ (attempts : List Attempt) (count : Nat) (last : ℚ) (consec : Nat),
      (∀ t ∈ restart_times_of (stream_audio_events attempts count last consec),
        last + restart_cooldown ≤ t)
      ∧ List.Chain' (fun x y => x + restart_cooldown ≤ y)
          (restart_times_of (stream_audio_events attempts count last consec)) := by
  intro attempts
  induction attempts with
  | nil => intro count last consec; simp [stream_audio_events, restart_times_of]
  | cons a rest ih =>
    intro count last consec
    rcases a with ⟨o, tm, r, ra⟩
    simp only [stream_audio_events]
    split
    · cases o with
      | success =>
        dsimp only
        rw [restart_times_of_reopen]
        exact ih count last 0
      | cancelled =>
        dsimp only
        split
        · rw [restart_times_of_reopen]
          exact ih count last consec
        · simp [restart_times_of]
      | transient cls =>
        dsimp only
        split
        · simp [restart_times_of]
        · rcases hsr : should_restart ra count last tm with ⟨b, c1, l1⟩
          cases b with
          | false =>
            dsimp only
            cases cls with
            | iteratorUnknown => simp [restart_times_of]
            | recoverable =>
              rw [restart_times_of_reopen]
              exact ih count last (consec + 1)
          | true =>
            obtain ⟨hc1, hl1, hcool⟩ := should_restart_true_eq ra count last tm c1 l1 hsr
            subst hc1; subst hl1
            dsimp only
            rw [restart_times_of_restart]
            have hrc : (0 : ℚ) < restart_cooldown := by norm_num [restart_cooldown]
            have ihr := ih (count + 1) l1 (consec + 1)
            constructor
            · intro t ht
              rcases List.mem_cons.mp ht with rfl | ht
              · linarith
              · have := ihr.1 t ht
                linarith
            · exact List.chain'_cons'.mpr
                ⟨fun y hy => ihr.1 y (List.mem_of_mem_head? hy), ihr.2⟩
      | fatal => simp [restart_times_of]
    · simp [restart_times_of]

/-- Two transient attempts entering with the consecutive-error counter
already at one or more: the run ignores everything past them, and any
counted restart belongs to the first of the two. -/
theorem stream_audio_two_transient (a2 a3 : Attempt) (tail : List Attempt)
    (c : Nat) (l : ℚ) (k : Nat) (cls2 cls3 : TransientClass)
    (h2 : a2.outcome = Outcome.transient cls2)
    (h3 : a3.outcome = Outcome.transient cls3) (hk : 1 ≤ k) :
    stream_audio_events (a2 :: a3 :: tail) c l k
      = stream_audio_events [a2, a3] c l k
    ∧ ∀ t ∈ restart_times_of (stream_audio_events (a2 :: a3 :: tail) c l k),
        t = a2.time := by
  have hc3 : max_consecutive_errors ≤ k + 1 + 1 := by
    simp only [max_consecutive_errors]; omega
  constructor
  · rw [stream_audio_events_cons a2 (a3 :: tail), stream_audio_events_cons a2 [a3], h2]
    by_cases g2 : a2.running = true ∧ c < max_restarts
    · simp only [if_pos g2]
      by_cases e2 : max_consecutive_errors ≤ k + 1
      · simp only [if_pos e2]
      · simp only [if_neg e2]
        rcases hsr : should_restart a2.runningAfter c l a2.time with ⟨b, c1, l1⟩
        cases b with
        | false =>
          dsimp only
          cases cls2 with
          | iteratorUnknown => rfl
          | recoverable =>
            rw [stream_audio_third_error a3 tail c l (k + 1) cls3 h3 hc3,
                stream_audio_third_error a3 [] c l (k + 1) cls3 h3 hc3]
        | true =>
          dsimp only
          congr 1
          rw [stream_audio_third_error a3 tail c1 l1 (k + 1) cls3 h3 hc3,
              stream_audio_third_error a3 [] c1 l1 (k + 1) cls3 h3 hc3]
    · simp only [if_neg g2]
  · intro t ht
    rw [stream_audio_events_cons a2 (a3 :: tail), h2] at ht
    dsimp only at ht
    by_cases g2 : a2.running = true ∧ c < max_restarts
    · rw [if_pos g2] at ht
      by_cases e2 : max_consecutive_errors ≤ k + 1
      · rw [if_pos e2] at ht
        simp [restart_times_of] at ht
      · rw [if_neg e2] at ht
        rcases hsr : should_restart a2.runningAfter c l a2.time with ⟨b, c1, l1⟩
        rw [hsr] at ht
        cases b with
        | false =>
          dsimp only at ht
          cases cls2 with
          | iteratorUnknown => simp [restart_times_of] at ht
          | recoverable =>
            rw [restart_times_of_reopen,
                stream_audio_third_error a3 tail c l (k + 1) cls3 h3 hc3] at ht
            simp [restart_times_of] at ht
        | true =>
          dsimp only at ht
          rw [restart_times_of_restart] at ht
          rcases List.mem_cons.mp ht with rfl | ht2
          · rfl
          · rw [stream_audio_third_error a3 tail c1 l1 (k + 1) cls3 h3 hc3] at ht2
            simp [restart_times_of] at ht2
    · rw [if_neg g2] at ht
      simp [restart_times_of] at ht

/-- After three consecutive transient errors of any classes with no
intervening success the worker exits: everything past them is ignored, and
any counted restart belongs to the first two errors. -/
theorem stream_audio_three_transient (a1 a2 a3 : Attempt) (rest : List Attempt)
    (count : Nat) (last : ℚ) (consec : Nat) (cls1 cls2 cls3 : TransientClass)
    (h1 : a1.outcome = Outcome.transient cls1)
    (h2 : a2.outcome = Outcome.transient cls2)
    (h3 : a3.outcome = Outcome.transient cls3) :
    stream_audio_events (a1 :: a2 :: a3 :: rest) count last consec
      = stream_audio_events [a1, a2, a3] count last consec
    ∧ ∀ t ∈ restart_times_of (stream_audio_events (a1 :: a2 :: a3 :: rest) count last consec),
        t = a1.time ∨ t = a2.time := by
  have htwo := fun (tail : List Attempt) (c1 : Nat) (l1 : ℚ) =>
    stream_audio_two_transient a2 a3 tail c1 l1 (consec + 1) cls2 cls3 h2 h3 (by omega)
  constructor
  · rw [stream_audio_events_cons a1 (a2 :: a3 :: rest),
        stream_audio_events_cons a1 [a2, a3], h1]
    by_cases g1 : a1.running = true ∧ count < max_restarts
    · simp only [if_pos g1]
      by_cases e1 : max_consecutive_errors ≤ consec + 1
      · simp only [if_pos e1]
      · simp only [if_neg e1]
        rcases hsr : should_restart a1.runningAfter count last a1.time with ⟨b, c1, l1⟩
        cases b with
        | false =>
          dsimp only
          cases cls1 with
          | iteratorUnknown => rfl
          | recoverable =>
            dsimp only
            congr 1
            exact (htwo rest count last).1
        | true =>
          dsimp only
          congr 1
          exact (htwo rest c1 l1).1
    · simp only [if_neg g1]
  · intro t ht
    rw [stream_audio_events_cons a1 (a2 :: a3 :: rest), h1] at ht
    dsimp only at ht
    by_cases g1 : a1.running = true ∧ count < max_restarts
    · rw [if_pos g1] at ht
      by_cases e1 : max_consecutive_errors ≤ consec + 1
      · rw [if_pos e1] at ht
        simp [restart_times_of] at ht
      · rw [if_neg e1] at ht
        rcases hsr : should_restart a1.runningAfter count last a1.time with ⟨b, c1, l1⟩
        rw [hsr] at ht
        cases b with
        | false =>
          dsimp only at ht
          cases cls1 with
          | iteratorUnknown => simp [restart_times_of] at ht
          | recoverable =>
            rw [restart_times_of_reopen] at ht
            exact Or.inr ((htwo rest count last).2 t ht)
        | true =>
          dsimp only at ht
          rw [restart_times_of_restart] at ht
          rcases List.mem_cons.mp ht with rfl | ht2
          · exact Or.inl rfl
          · exact Or.inr ((htwo rest c1 l1).2 t ht2)
    · rw [if_neg g1] at ht
      simp [restart_times_of] at ht

/-- C2 counterexample: the claim fails as stated. In this concrete run a
recoverable-class transient error at time 10 earns a counted restart; a
second recoverable-class error at time 11 is declined by `_should_restart`
because only 1 second of the 2-second cooldown has elapsed — yet the worker
does not exit: with no `break` after the declined check (stt.py lines
231-233) it re-opens the stream at once (the reopen event at time 11,
within the cooldown of the restart at time 10, with the counter and
timestamp unchanged) and goes on to run the third attempt. Stream restarts
are therefore attempted without the three conditions holding and more
frequently than the cooldown allows. -/
theorem C2_cooldown_counterexample :
    stream_audio_events
        [⟨Outcome.transient TransientClass.recoverable, 10, true, true⟩,
         ⟨Outcome.transient TransientClass.recoverable, 11, true, true⟩,
         ⟨Outcome.success, 12, true, true⟩] 0 0 0
      = [WorkerEv.restart 10, WorkerEv.reopen 11, WorkerEv.reopen 12]
    ∧ (11 : ℚ) - 10 < restart_cooldown := by
  have h1 : should_restart true 0 0 10 = (true, 1, 10) := by
    unfold should_restart
    rw [if_neg (by simp), if_neg (by norm_num [max_restarts]),
        if_neg (by norm_num [restart_cooldown])]
  have h2 : should_restart true 1 10 11 = (false, 1, 10) := by
    unfold should_restart
    rw [if_neg (by simp), if_neg (by norm_num [max_restarts]),
        if_pos (by norm_num [restart_cooldown])]
  refine ⟨?_, by norm_num [restart_cooldown]⟩
  simp [stream_audio_events, h1, h2, max_restarts, max_consecutive_errors]

/-- C2 amended: (i) a counted auto-restart — the `_should_restart` path,
which increments the restart counter and records the restart time — happens
only when the manager is still running, the counter is below its ceiling,
and the cooldown has elapsed since the last restart; (ii) after three
consecutive transient errors (the consecutive-error ceiling) of any classes
with no intervening success, no further restart is attempted and the worker
exits (the result ignores all subsequent attempts, and any counted restart
belongs to the first two errors); (iii) successive counted restarts are
never less than the cooldown apart; but (iv) a recoverable-class error
(ServiceUnavailable / DeadlineExceeded / ConnectionError) whose restart is
declined does not make the worker exit: the loop re-opens the stream
immediately, with the restart counter, the restart timestamp and hence the
cooldown untouched, so stream re-openings themselves are not confined to
the three-condition policy. -/
theorem C2_restart_policy_amended :
    (∀ (running : Bool) (count : Nat) (last now : ℚ),
        (should_restart running count last now).1 = true →
        running = true ∧ count < max_restarts ∧ restart_cooldown ≤ now - last)
    ∧ (∀ (a1 a2 a3 : Attempt) (rest : List Attempt) (count : Nat) (last : ℚ)
          (consec : Nat) (cls1 cls2 cls3 : TransientClass),
        a1.outcome = Outcome.transient cls1 → a2.outcome = Outcome.transient cls2 →
        a3.outcome = Outcome.transient cls3 →
        stream_audio_events (a1 :: a2 :: a3 :: rest) count last consec
          = stream_audio_events [a1, a2, a3] count last consec
        ∧ ∀ t ∈ restart_times_of
              (stream_audio_events (a1 :: a2 :: a3 :: rest) count last consec),
            t = a1.time ∨ t = a2.time)
    ∧ (∀ (attempts : List Attempt) (count : Nat) (last : ℚ) (consec : Nat),
        List.Chain' (fun x y => x + restart_cooldown ≤ y)
          (restart_times_of (stream_audio_events attempts count last consec)))
    ∧ (∀ (a : Attempt) (rest : List Attempt) (count : Nat) (last : ℚ) (consec : Nat),
        a.outcome = Outcome.transient TransientClass.recoverable →
        a.running = true → count < max_restarts →
        ¬ max_consecutive_errors ≤ consec + 1 →
        (should_restart a.runningAfter count last a.time).1 = false →
        stream_audio_events (a :: rest) count last consec
          = WorkerEv.reopen a.time :: stream_audio_events rest count last (consec + 1)) := by
  refine ⟨should_restart_true,
    fun a1 a2 a3 rest count last consec cls1 cls2 cls3 h1 h2 h3 =>
      stream_audio_three_transient a1 a2 a3 rest count last consec cls1 cls2 cls3 h1 h2 h3,
    fun attempts count last consec =>
      (stream_audio_restarts_spaced attempts count last consec).2,
    ?_⟩
  intro a rest count last consec ho hr hcnt hcons hdecl
  rw [stream_audio_events_cons, ho, if_pos ⟨hr, hcnt⟩]
  dsimp only
  rw [if_neg hcons]
  rcases hsr : should_restart a.runningAfter count last a.time with ⟨b, c1, l1⟩
  rw [hsr] at hdecl
  cases b with
  | false => rfl
  | true => cases hdecl

/-- Witness for the amended C2 at concrete inputs: a concrete eligible
restart decision; a concrete run of three recoverable transient errors
whose result ignores a fourth attempt and whose counted restarts are
cooldown-spaced; and a concrete declined recoverable error after which the
worker re-opens instead of exiting. -/
theorem C2_restart_policy_amended_witness :
    (true = true ∧ 0 < max_restarts ∧ restart_cooldown ≤ (10 : ℚ) - 0)
    ∧ stream_audio_events
        [⟨Outcome.transient TransientClass.recoverable, 10, true, true⟩,
         ⟨Outcome.transient TransientClass.recoverable, 20, true, true⟩,
         ⟨Outcome.transient TransientClass.recoverable, 30, true, true⟩,
         ⟨Outcome.success, 40, true, true⟩] 0 0 0
      = stream_audio_events
        [⟨Outcome.transient TransientClass.recoverable, 10, true, true⟩,
         ⟨Outcome.transient TransientClass.recoverable, 20, true, true⟩,
         ⟨Outcome.transient TransientClass.recoverable, 30, true, true⟩] 0 0 0
    ∧ List.Chain' (fun x y => x + restart_cooldown ≤ y)
        (restart_times_of (stream_audio_events
          [⟨Outcome.transient TransientClass.recoverable, 10, true, true⟩,
           ⟨Outcome.transient TransientClass.recoverable, 20, true, true⟩,
           ⟨Outcome.transient TransientClass.recoverable, 30, true, true⟩,
           ⟨Outcome.success, 40, true, true⟩] 0 0 0))
    ∧ stream_audio_events
        [⟨Outcome.transient TransientClass.recoverable, 11, true, true⟩] 1 10 1
      = [WorkerEv.reopen 11] :=
  ⟨C2_restart_policy_amended.1 true 0 0 10
     (by norm_num [should_restart, max_restarts, restart_cooldown]),
   (C2_restart_policy_amended.2.1
      ⟨Outcome.transient TransientClass.recoverable, 10, true, true⟩
      ⟨Outcome.transient TransientClass.recoverable, 20, true, true⟩
      ⟨Outcome.transient TransientClass.recoverable, 30, true, true⟩
      [⟨Outcome.success, 40, true, true⟩] 0 0 0
      TransientClass.recoverable TransientClass.recoverable TransientClass.recoverable
      rfl rfl rfl).1,
   C2_restart_policy_amended.2.2.1
     [⟨Outcome.transient TransientClass.recoverable, 10, true, true⟩,
      ⟨Outcome.transient TransientClass.recoverable, 20, true, true⟩,
      ⟨Outcome.transient TransientClass.recoverable, 30, true, true⟩,
      ⟨Outcome.success, 40, true, true⟩] 0 0 0,
   C2_restart_policy_amended.2.2.2
     ⟨Outcome.transient TransientClass.recoverable, 11, true, true⟩ [] 1 10 1
     rfl rfl (by norm_num [max_restarts]) (by norm_num [max_consecutive_errors])
     (by norm_num [should_restart, max_restarts, restart_cooldown])⟩

/-! ## Dialogue orchestration (flow.py) -/

/-- Question-count policy constants (src/__init__ state; apps.py lines 31-33). -/
def MIN_QUESTIONS : Nat := 4

def MAX_QUESTIONS : Nat := 10

def IDEAL_QUESTIONS : Nat := 8

/-- The contextual fields of an `ai_message` socket event; a field is `none`
when the producing branch did not include the key. The base64 audio payload
returned by the external text-to-speech backend is opaque and omitted. -/
structure AiMessage where
  text : String
  evaluation : Option String := none
  score : Option ℤ := none
  question_number : Option Nat := none
  interview_stage : Option String := none
  should_continue : Option Bool := none
  requires_confirmation : Option Bool := none
  is_final : Option Bool := none
deriving DecidableEq, Repr

/-- The shape of the final report relevant to the sequencing claims: its
statistics, analysis and detailed Q&A (report.py lines 137-157). -/
structure Report where
  total_questions : Nat
  overall_score : ℚ
  ai_analysis : FallbackAnalysis
  detailed_qa : List QaPair
deriving Repr

/-- Outbound socket events emitted by the orchestrator. -/
inductive Emission
  | info (message : String)
  | error (message : String)
  | userTranscript (text : String)
  | aiMessage (m : AiMessage)
  | interviewComplete (report : Report)
deriving Repr

/-- The dialogue-backend reply fields after the orchestrator `.get`
defaulting (flow.py lines 135-139); this record models a successful
`json.loads` of the fence-stripped reply. -/
structure LLMParsed where
  evaluation : String
  score : ℤ
  next_question : String
  should_continue : Bool
  interview_stage : String
deriving DecidableEq, Repr

/-- Result of the `get_llm_response` call: `failed` when the backend call
returned nothing (flow.py lines 115-122 then substitutes a default reply
that always parses); otherwise the raw reply text together with the outcome
of `json.loads` on its fence-stripped form (`none` models JSONDecodeError). -/
inductive LLMResult
  | failed
  | reply (raw : String) (parsed : Option LLMParsed)
deriving DecidableEq, Repr

/-- The default structured reply substituted when the backend call fails
(flow.py lines 116-122). -/
def default_llm_reply : LLMParsed :=
  { evaluation := "Let\x27s continue our discussion", score := 0,
    next_question := "Thank you for that response. Let\x27s explore another technical area.",
    should_continue := true, interview_stage := "mid" }

/-- The parse outcome the orchestrator works with: the substituted default
reply always parses; an actual reply carries its own parse outcome. -/
def parse_of : LLMResult → Option LLMParsed
  | LLMResult.failed => some default_llm_reply
  | LLMResult.reply _ p => p

/-- The raw reply text (used verbatim by the JSONDecodeError fallback; the
`failed` case substitutes a default JSON string that always parses, so its
raw text is never used by that fallback). -/
def raw_of : LLMResult → String
  | LLMResult.failed => ""
  | LLMResult.reply r _ => r

/-- Embedding of the fenced-code-marker stripping applied to the reply
before `json.loads` (flow.py lines 125-132). -/
def strip_code_fences (r : String) : String :=
  let c := strip r
  let c := if c.startsWith "```json" then c.drop 7
           else if c.startsWith "```" then c.drop 3
           else c
  let c := if c.endsWith "```" then c.dropRight 3 else c
  strip c

/-- Embedding of `create_conversational_feedback` (flow.py lines 29-40); the
`random.choice` picker is an injected parameter. -/
def create_conversational_feedback (choose : List String → String)
    (evaluation next_question : String) : String :=
  let el := lowerChars evaluation.toList
  let transitions :=
    if ["excellent", "great", "good", "well", "correct", "strong", "impressive"].any
        (fun w => containsChars w.toList el) then
      ["Excellent. ", "That\x27s very good. ", "Well explained. ",
       "Good understanding. ", "Perfect. "]
    else if ["okay", "decent", "fair", "partial", "some", "adequate"].any
        (fun w => containsChars w.toList el) then
      ["I see. ", "Understood. ", "Alright. ", "Thank you. "]
    else if ["unclear", "incomplete", "missing", "weak", "incorrect"].any
        (fun w => containsChars w.toList el) then
      ["Let me ask about... ", "Could you clarify... ",
       "I\x27d like to understand... ", "Please explain... "]
    else
      ["Alright. ", "Thank you. ", "I understand. "]
  choose transitions ++ next_question

/-- The confirmation text synthesized when stop intent arrives before the
minimum question count (flow.py lines 89-93). -/
def confirmation_message (questions_asked : Nat) : String :=
  "I understand you\x27d like to conclude the interview. However, we\x27ve only covered " ++
    toString questions_asked ++
    " questions. To provide a comprehensive assessment, I\x27d recommend answering at least " ++
    toString (MIN_QUESTIONS - questions_asked) ++
    " more question(s). Would you like to continue, or shall we conclude with the current assessment?"

/-- The closing message of `end_interview_naturally` (flow.py lines 189-198),
chosen by who triggered the end. -/
def closing_message (user_initiated : Bool) (questions_asked : Nat) : String :=
  if user_initiated then
    "Thank you for your time and responses today. We\x27ve discussed " ++
      toString questions_asked ++
      " questions, which provides valuable insight into your capabilities. I appreciate your openness in sharing your experience. This concludes our technical interview session."
  else
    "Thank you for this comprehensive discussion. We\x27ve thoroughly covered " ++
      toString questions_asked ++
      " questions across various technical domains, and I have a clear understanding of your expertise and approach to problem-solving. This concludes our technical interview session."

/-- One registry entry of the `sessions` table: the running flag, the turn
history, and the owned audio processor (events.py line 14). -/
structure Session where
  is_running : Bool
  chat_history : List Entry
  audio_processor : Option ProcState
deriving DecidableEq, Repr

/-- The synchronous part of `end_interview_naturally` (flow.py lines
182-219): stop the processor, clear the running flag, and emit the closing
ai_message flagged final. The deferred report thread it spawns is modelled
by [end_interview_timeline]. -/
def end_interview_core (s : Session) (questions_asked : Nat)
    (user_initiated : Bool) : Session × List Emission :=
  ({ s with audio_processor := s.audio_processor.map ProcState.stop,
            is_running := false },
   [Emission.aiMessage { text := closing_message user_initiated questions_asked,
                         is_final := some true }])

/-- Embedding of `process_user_transcript` (flow.py lines 73-179) on a
transcript already normalized by `clean_transcript` (the fixed regex
substitution table applied upstream): reject short text (unmuting); on stop
intent either end the interview (enough questions) or mute and emit the
confirmation prompt; otherwise mute, append the candidate turn, emit the
user transcript, end at the question ceiling, and otherwise handle the
dialogue-backend reply — appending an interviewer turn with evaluation and
score and emitting a turn event when it parses, or appending the raw reply
as the question with no evaluation or score when it does not. -/
def process_user_transcript (choose : List String → String) (s : Session)
    (user_text : String) (llm : LLMResult) : Session × List Emission :=
  if user_text.length < 3 then
    ({ s with audio_processor := s.audio_processor.map ProcState.unmute }, [])
  else if check_stop_command user_text then
    let questions_asked := get_question_count s.chat_history
    if MIN_QUESTIONS ≤ questions_asked then
      end_interview_core s questions_asked true
    else
      ({ s with audio_processor := s.audio_processor.map ProcState.mute },
       [Emission.aiMessage { text := confirmation_message questions_asked,
                             requires_confirmation := some true }])
  else
    let s1 : Session :=
      { s with audio_processor := s.audio_processor.map ProcState.mute,
               chat_history := s.chat_history ++ [Entry.candidate user_text] }
    let em0 := [Emission.userTranscript user_text]
    let qa1 := get_question_count s1.chat_history
    if MAX_QUESTIONS ≤ qa1 then
      let r := end_interview_core s1 qa1 false
      (r.1, em0 ++ r.2)
    else
      match parse_of llm with
      | some rd =>
        let qa2 := get_question_count s1.chat_history
        let s2 : Session :=
          { s1 with chat_history := s1.chat_history ++
              [Entry.interviewer rd.next_question (some rd.evaluation) (some rd.score)] }
        if (rd.should_continue = false ∨ MAX_QUESTIONS ≤ qa2) ∧ MIN_QUESTIONS ≤ qa2 then
          let r := end_interview_core s2 (qa2 + 1) false
          (r.1, em0 ++ r.2)
        else
          (s2, em0 ++ [Emission.aiMessage
            { text := create_conversational_feedback choose rd.evaluation rd.next_question,
              evaluation := some rd.evaluation, score := some rd.score,
              question_number := some (qa2 + 1),
              interview_stage := some rd.interview_stage,
              should_continue := some rd.should_continue }])
      | none =>
        let qa2 := get_question_count s1.chat_history
        let s2 : Session :=
          { s1 with chat_history := s1.chat_history ++
              [Entry.interviewer (raw_of llm) none none] }
        (s2, em0 ++ [Emission.aiMessage
          { text := raw_of llm, question_number := some (qa2 + 1) }])

theorem get_question_count_append_candidate (h : List Entry) (t : String) :
    get_question_count (h ++ [Entry.candidate t]) = get_question_count h := by
  simp [get_question_count, List.filter_append]

theorem get_question_count_append_interviewer (h : List Entry) (q : String)
    (e : Option String) (sc : Option ℤ) :
    get_question_count (h ++ [Entry.interviewer q e sc])
      = get_question_count h + 1 := by
  simp [get_question_count, List.filter_append]

/-- C4: when the backend reply fails JSON parsing (after fence stripping,
modelled by a `none` parse outcome), the orchestrator appends the entire raw
reply to the history as the next interviewer turn with no evaluation and no
score keys, emits an ai_message whose text is the raw reply and which
carries no score or evaluation fields (only a question number), and the
interviewer-turn count increases by exactly one. -/
theorem C4_json_fallback :
    ∀ (choose : List String → String) (s : Session) (text raw : String),
      3 ≤ text.length → check_stop_command text = false →
      get_question_count s.chat_history < MAX_QUESTIONS →
      process_user_transcript choose s text (LLMResult.reply raw none)
        = ({ s with audio_processor := s.audio_processor.map ProcState.mute,
                    chat_history := s.chat_history ++
                      [Entry.candidate text, Entry.interviewer raw none none] },
           [Emission.userTranscript text,
            Emission.aiMessage
              { text := raw
                question_number := some (get_question_count s.chat_history + 1) }])
      ∧ get_question_count
            (s.chat_history ++ [Entry.candidate text, Entry.interviewer raw none none])
          = get_question_count s.chat_history + 1 := by
  intro choose s text raw hlen hstop hq
  constructor
  · simp only [process_user_transcript]
    rw [if_neg (by omega)]
    rw [if_neg (by simp [hstop])]
    simp only [parse_of, raw_of]
    rw [if_neg (by rw [get_question_count_append_candidate]; omega)]
    rw [get_question_count_append_candidate]
    simp [List.append_assoc]
  · rw [show s.chat_history ++ [Entry.candidate text, Entry.interviewer raw none none]
        = (s.chat_history ++ [Entry.candidate text]) ++ [Entry.interviewer raw none none]
      by simp]
    rw [get_question_count_append_interviewer, get_question_count_append_candidate]

/-- Witness for C4: a session with one question asked; the unparsable reply
becomes the next question verbatim, with question number 2 and no score or
evaluation fields. -/
theorem C4_json_fallback_witness :
    (process_user_transcript (fun l => l.headD "")
        ⟨true, [Entry.metadata "resume" "jd" "technical",
                Entry.interviewer "Tell me about yourself." (some "") (some 0)], none⟩
        "I have five years of backend experience"
        (LLMResult.reply "What projects have you built?" none)).2
      = [Emission.userTranscript "I have five years of backend experience",
         Emission.aiMessage
           { text := "What projects have you built?"
             question_number := some 2 }] := by
  have h := C4_json_fallback (fun l => l.headD "")
      ⟨true, [Entry.metadata "resume" "jd" "technical",
              Entry.interviewer "Tell me about yourself." (some "") (some 0)], none⟩
      "I have five years of backend experience" "What projects have you built?"
      (by decide) (by decide) (by decide)
  rw [h.1]
  rfl

/-- The stop-intent branch below the minimum question count (flow.py lines
85-100): mute the processor, emit the confirmation prompt flagged
requires_confirmation, change nothing else. -/
theorem stop_confirmation_branch (choose : List String → String) (s : Session)
    (text : String) (llm : LLMResult)
    (hlen : 3 ≤ text.length) (hstop : check_stop_command text = true)
    (hq : get_question_count s.chat_history < MIN_QUESTIONS) :
    process_user_transcript choose s text llm
      = ({ s with audio_processor := s.audio_processor.map ProcState.mute },
         [Emission.aiMessage
           { text := confirmation_message (get_question_count s.chat_history)
             requires_confirmation := some true }]) := by
  simp only [process_user_transcript]
  rw [if_neg (by omega), if_pos hstop, if_neg (by omega)]

/-- C5 counterexample: the claim final clause fails as stated. With one
question asked, the utterance "let\x27s stop the interview" produces the
confirmation prompt; the code keeps no confirmation state, so the next
utterance "end the interview" is NOT interpreted as the answer to the
confirmation: it is re-evaluated for stop intent, producing a second
confirmation prompt and leaving the history without any recorded answer. -/
theorem C5_confirmation_counterexample :
    (process_user_transcript (fun l => l.headD "")
        (process_user_transcript (fun l => l.headD "")
            ⟨true, [Entry.metadata "r" "j" "t", Entry.interviewer "Q1" none none], none⟩
            "let\x27s stop the interview" LLMResult.failed).1
        "end the interview" LLMResult.failed).2
      = [Emission.aiMessage
          { text := confirmation_message 1
            requires_confirmation := some true }]
    ∧ (process_user_transcript (fun l => l.headD "")
        (process_user_transcript (fun l => l.headD "")
            ⟨true, [Entry.metadata "r" "j" "t", Entry.interviewer "Q1" none none], none⟩
            "let\x27s stop the interview" LLMResult.failed).1
        "end the interview" LLMResult.failed).1.chat_history
      = [Entry.metadata "r" "j" "t", Entry.interviewer "Q1" none none] :=
  ⟨rfl, rfl⟩

/-- C5 amended: while running, a completed utterance matching a stop phrase
with fewer than the minimum questions asked mutes audio capture, emits the
confirmation ai_message with requires_confirmation true, and leaves the
session running with its history unchanged; but the next utterance is
processed by the same rules as any other — stop intent IS re-evaluated, so
a subsequent stop-phrase utterance yields another confirmation prompt
instead of being treated as the answer to the first one. -/
theorem C5_confirmation_amended :
    ∀ (choose : List String → String) (s : Session) (text : String)
      (llm : LLMResult),
      3 ≤ text.length → check_stop_command text = true →
      get_question_count s.chat_history < MIN_QUESTIONS →
      process_user_transcript choose s text llm
        = ({ s with audio_processor := s.audio_processor.map ProcState.mute },
           [Emission.aiMessage
             { text := confirmation_message (get_question_count s.chat_history)
               requires_confirmation := some true }])
      ∧ (process_user_transcript choose s text llm).1.is_running = s.is_running
      ∧ (process_user_transcript choose s text llm).1.chat_history = s.chat_history
      ∧ ∀ (text2 : String) (llm2 : LLMResult), 3 ≤ text2.length →
          check_stop_command text2 = true →
          (process_user_transcript choose
              (process_user_transcript choose s text llm).1 text2 llm2).2
            = [Emission.aiMessage
                { text := confirmation_message (get_question_count s.chat_history)
                  requires_confirmation := some true }] := by
  intro choose s text llm hlen hstop hq
  have main := stop_confirmation_branch choose s text llm hlen hstop hq
  refine ⟨main, by rw [main], by rw [main], ?_⟩
  intro text2 llm2 hlen2 hstop2
  have hq2 : get_question_count
      ({ s with audio_processor := s.audio_processor.map ProcState.mute } :
        Session).chat_history < MIN_QUESTIONS := hq
  have main2 := stop_confirmation_branch choose _ text2 llm2 hlen2 hstop2 hq2
  rw [main]
  dsimp only
  rw [main2]

/-- Witness for the amended C5: "let\x27s stop the interview" after one
question produces the confirmation, the session stays running, and a second
stop-phrase utterance produces the confirmation again. -/
theorem C5_confirmation_amended_witness :
    (process_user_transcript (fun l => l.headD "")
        ⟨true, [Entry.metadata "r" "j" "t", Entry.interviewer "Q1" none none], none⟩
        "let\x27s stop the interview" LLMResult.failed).1.is_running = true
    ∧ (process_user_transcript (fun l => l.headD "")
        (process_user_transcript (fun l => l.headD "")
            ⟨true, [Entry.metadata "r" "j" "t", Entry.interviewer "Q1" none none], none⟩
            "let\x27s stop the interview" LLMResult.failed).1
        "end the interview" LLMResult.failed).2
      = [Emission.aiMessage
          { text := confirmation_message 1
            requires_confirmation := some true }] := by
  have h := C5_confirmation_amended (fun l => l.headD "")
      ⟨true, [Entry.metadata "r" "j" "t", Entry.interviewer "Q1" none none], none⟩
      "let\x27s stop the interview" LLMResult.failed
      (by decide) (by decide) (by decide)
  exact ⟨h.2.1, h.2.2.2 "end the interview" LLMResult.failed (by decide) (by decide)⟩

/-! ## Closing/report sequencing (flow.py, end_interview_naturally) -/

/-- The estimated spoken duration of the closing message (flow.py lines
201-202): word count over a 150-words-per-minute nominal rate scaled by the
30-second factor used in the code. -/
def estimated_duration (closing : String) : ℚ :=
  ((py_word_count closing : ℚ) / 150) * 30

/-- The deferred wait before report delivery: estimated duration plus the
fixed 3-second buffer (flow.py lines 203-204). -/
def total_wait_time (closing : String) : ℚ :=
  estimated_duration closing + 3

/-- An outbound emission stamped with the wall-clock time it happens. -/
structure TimedEmission where
  time : ℚ
  emission : Emission
deriving Repr

/-- When report generation starting at `spawn` takes `gen_duration`
seconds, generation is complete at this time; the generation runs first in
the spawned thread, before the deferred sleep (flow.py lines 212-216). -/
def report_ready_time (spawn gen_duration : ℚ) : ℚ := spawn + gen_duration

/-- The emissions of the spawned `generate_and_send_report` thread (flow.py
lines 212-219): nothing when report generation returns nothing; otherwise
one interview_complete event, delivered after generation plus the full
deferred wait. -/
def generate_and_send_report_events (spawn gen_duration : ℚ)
    (report : Option Report) (wait : ℚ) : List TimedEmission :=
  match report with
  | none => []
  | some r => [⟨spawn + gen_duration + wait, Emission.interviewComplete r⟩]

/-- The timed emissions of `end_interview_naturally` (flow.py lines
182-219): the closing ai_message flagged final is emitted synchronously at
`t0`, and the report thread is spawned at `t0` with the wait computed from
the closing message. -/
def end_interview_timeline (t0 gen_duration : ℚ) (user_initiated : Bool)
    (questions_asked : Nat) (report : Option Report) : List TimedEmission :=
  let closing := closing_message user_initiated questions_asked
  ⟨t0, Emission.aiMessage { text := closing, is_final := some true }⟩ ::
    generate_and_send_report_events t0 gen_duration report (total_wait_time closing)

/-- C8: after the closing ai_message flagged final is emitted at `t0`, the
report assembly starts immediately in the spawned thread — it completes at
`t0` plus its own duration, a time before the deferred wait expires
whenever generation is faster than the wait, so assembly runs during the
wait window rather than after it — and the interview_complete event
carrying the finished report is delivered only once the full deferred wait
has elapsed (its delivery time is generation completion plus the whole
wait, hence at or after `t0` plus the wait). -/
theorem C8_report_timing :
    ∀ (t0 g : ℚ) (uini : Bool) (qa : Nat) (r : Report),
      0 ≤ g →
      (⟨t0, Emission.aiMessage { text := closing_message uini qa, is_final := some true }⟩
          ∈ end_interview_timeline t0 g uini qa (some r))
      ∧ (g < total_wait_time (closing_message uini qa) →
          report_ready_time t0 g < t0 + total_wait_time (closing_message uini qa))
      ∧ (⟨report_ready_time t0 g + total_wait_time (closing_message uini qa),
           Emission.interviewComplete r⟩ ∈ end_interview_timeline t0 g uini qa (some r))
      ∧ (∀ te ∈ end_interview_timeline t0 g uini qa (some r),
          (∃ rr, te.emission = Emission.interviewComplete rr) →
          t0 + total_wait_time (closing_message uini qa) ≤ te.time) := by
  intro t0 g uini qa r hg
  refine ⟨?_, ?_, ?_, ?_⟩
  · simp [end_interview_timeline]
  · intro hlt
    simp only [report_ready_time]
    linarith
  · simp [end_interview_timeline, generate_and_send_report_events,
          report_ready_time, add_assoc]
  · intro te hte hex
    simp only [end_interview_timeline, generate_and_send_report_events,
               List.mem_cons, List.not_mem_nil, or_false] at hte
    rcases hte with rfl | rfl
    · rcases hex with ⟨rr, hrr⟩
      cases hrr
    · simp only
      linarith

/-- Witness for C8 at concrete inputs: generation takes 1 second, which is
less than the deferred wait for the concrete closing message, and the
closing message is on the timeline at time 0. -/
theorem C8_report_timing_witness :
    (⟨(0 : ℚ), Emission.aiMessage
        { text := closing_message true 4, is_final := some true }⟩
      ∈ end_interview_timeline 0 1 true 4
          (some ⟨0, 0, generate_fallback_analysis 0 0 [], []⟩))
    ∧ report_ready_time 0 1 < 0 + total_wait_time (closing_message true 4) :=
  ⟨(C8_report_timing 0 1 true 4 ⟨0, 0, generate_fallback_analysis 0 0 [], []⟩
      (by norm_num)).1,
   (C8_report_timing 0 1 true 4 ⟨0, 0, generate_fallback_analysis 0 0 [], []⟩
      (by norm_num)).2.1 (by
        have hwc : py_word_count (closing_message true 4) = 33 := rfl
        simp only [total_wait_time, estimated_duration, hwc]
        norm_num)⟩

end AIInterview
